import Mathlib

/-!
Shallow embedding of the grainlify escrow contracts:
* `src/contracts/bounty_escrow/contracts/escrow/src/lib.rs` (namespace `BountyEscrow`)
* `src/contracts/program-escrow/src/lib.rs` (namespace `ProgramEscrow`)

Modelling conventions:
* `i128` values are Lean `Int`s; the contracts' explicitly checked operations
  (`checked_mul`, `checked_div`, `checked_add`) are modelled with the i128
  bounds spelled out.  Unchecked arithmetic (`+`, `-`, `+=`, `-=`) is plain
  `Int` arithmetic, faithful whenever no wrap occurs.
* Addresses are `Nat`; `contractAddr` stands for `env.current_contract_address()`.
* Storage is explicit state passing; the external token client's
  `transfer(from, to, amount)` calls are recorded in an output `List Transfer`
  (the settlement gateway is an external collaborator assumed to succeed).
* `require_auth` is delegated to the external authorizer and not modelled.
* A Rust abort (the program-escrow variant aborts with a message) is an
  `Except.error msg`; the bounty variant returns its typed `Error`, and a
  storage-`unwrap` trap is `CallFailure.trap`.  The host rolls back all
  effects of a failed invocation (spec §5), which the `Except` embedding
  reflects: an error carries no successor state and no transfers; the `step`
  functions make the rollback explicit by keeping the prior state.
-/

abbrev Address := Nat

def i128Min : Int := -(2 ^ 127)

def i128Max : Int := 2 ^ 127 - 1

/-- Rust `i128::checked_mul`. -/
def checked_mul (a b : Int) : Option Int :=
  if i128Min ≤ a * b ∧ a * b ≤ i128Max then some (a * b) else none

/-- Rust `i128::checked_div` (Rust `/` truncates toward zero, i.e. `Int.tdiv`). -/
def checked_div (a b : Int) : Option Int :=
  if b = 0 ∨ (a = i128Min ∧ b = -1) then none else some (Int.tdiv a b)

/-- Rust `i128::checked_add`. -/
def checked_add (a b : Int) : Option Int :=
  if i128Min ≤ a + b ∧ a + b ≤ i128Max then some (a + b) else none

/-- `const BASIS_POINTS: i128 = 10_000` (both variants). -/
def BASIS_POINTS : Int := 10000

/-- `const MAX_FEE_RATE: i128 = 1_000` (both variants). -/
def MAX_FEE_RATE : Int := 1000

/-- A `transfer(from, to, amount)` call issued to the token client. -/
structure Transfer where
  src : Address
  dst : Address
  amount : Int
deriving DecidableEq

/-- `env.current_contract_address()`. -/
def contractAddr : Address := 0

namespace ProgramEscrow

/-- `FeeConfig` of the program escrow (lib.rs 24-29). -/
structure FeeConfig where
  lock_fee_rate : Int
  payout_fee_rate : Int
  fee_recipient : Address
  fee_enabled : Bool
deriving DecidableEq

/-- `PayoutRecord` (lib.rs 33-37). -/
structure PayoutRecord where
  recipient : Address
  amount : Int
  timestamp : Nat
deriving DecidableEq

/-- `ProgramData` (lib.rs 41-48). -/
structure ProgramData where
  program_id : String
  total_funds : Int
  remaining_balance : Int
  authorized_payout_key : Address
  payout_history : List PayoutRecord
  token_address : Address
deriving DecidableEq

/-- Instance storage of the program-escrow contract: the `ProgData` and
`FeeCfg` keys. -/
structure State where
  program : Option ProgramData
  feeConfig : Option FeeConfig
deriving DecidableEq

/-- Events published by the program escrow. -/
inductive Event where
  | progInit (pid : String) (key token : Address)
  | feeCollected (op : String) (amount rate : Int) (recipient : Address)
  | fundsLocked (pid : String) (net balance : Int)
  | batchPaid (pid : String) (count : Nat) (total balance : Int)
  | paid (pid : String) (recipient : Address) (net balance : Int)
deriving DecidableEq

/-- An invocation either aborts with a message (Rust abort, rolled back by the
host) or succeeds with the new state, the transfers issued and the events
published. -/
abbrev Result := Except String (State × List Transfer × List Event)

/-- `calculate_fee` of the program escrow (lib.rs 107-116). -/
def calculate_fee (amount fee_rate : Int) : Int :=
  if fee_rate = 0 then 0
  else ((checked_mul amount fee_rate).bind fun x => checked_div x BASIS_POINTS).getD 0

/-- `get_fee_config_internal` (lib.rs 119-129): defaults to a disabled
zero-rate config pointing at the contract address. -/
def get_fee_config_internal (st : State) : FeeConfig :=
  st.feeConfig.getD ⟨0, 0, contractAddr, false⟩

/-- `init_program` (lib.rs 64-104). -/
def init_program (st : State) (pid : String) (key token : Address) : Result :=
  if st.program.isSome then .error "Program already exists"
  else
    .ok (⟨some ⟨pid, 0, 0, key, [], token⟩, some ⟨0, 0, key, false⟩⟩, [],
         [.progInit pid key token])

/-- The fee taken by `lock_program_funds` (lib.rs 151-155). -/
def lockFee (fc : FeeConfig) (amount : Int) : Int :=
  if fc.fee_enabled = true ∧ 0 < fc.lock_fee_rate then calculate_fee amount fc.lock_fee_rate
  else 0

/-- The per-payout fee of `batch_payout`/`single_payout` (lib.rs 255-259,
346-350). -/
def payoutFee (fc : FeeConfig) (amount : Int) : Int :=
  if fc.fee_enabled = true ∧ 0 < fc.payout_fee_rate then calculate_fee amount fc.payout_fee_rate
  else 0

/-- `lock_program_funds` (lib.rs 138-189): no token transfer is issued; only
the stored balances move and events are published. -/
def lock_program_funds (st : State) (amount : Int) : Result :=
  if amount ≤ 0 then .error "Amount must be greater than zero"
  else match st.program with
    | none => .error "Program not initialized"
    | some pd =>
      let fc := get_fee_config_internal st
      let fee_amount := lockFee fc amount
      let net_amount := amount - fee_amount
      let pd2 := { pd with total_funds := pd.total_funds + net_amount,
                           remaining_balance := pd.remaining_balance + net_amount }
      .ok ({ st with program := some pd2 }, [],
        (if 0 < fee_amount then
          [Event.feeCollected "lock" fee_amount fc.lock_fee_rate fc.fee_recipient]
         else []) ++
        [Event.fundsLocked pd2.program_id net_amount pd2.remaining_balance])

/-- The pre-flight validation loop of `batch_payout` (lib.rs 223-232): checks
each amount positive and sums with `checked_add`. -/
def validateAmounts (acc : Int) : List Int → Except String Int
  | [] => .ok acc
  | a :: rest =>
    if a ≤ 0 then .error "All amounts must be greater than zero"
    else match checked_add acc a with
      | some t => validateAmounts t rest
      | none => .error "Payout amount overflow"

/-- The transfer loop of `batch_payout` (lib.rs 250-278): per pair, transfer
the net amount, transfer the fee when positive, append a `PayoutRecord` with
the net amount, and accumulate the fees. -/
def runPayouts (fc : FeeConfig) (ts : Nat) :
    List (Address × Int) → List Transfer × List PayoutRecord × Int
  | [] => ([], [], 0)
  | (r, a) :: rest =>
    let fee_amount := payoutFee fc a
    let net_amount := a - fee_amount
    let out := runPayouts fc ts rest
    (Transfer.mk contractAddr r net_amount ::
       ((if 0 < fee_amount then [Transfer.mk contractAddr fc.fee_recipient fee_amount]
         else []) ++ out.1),
     PayoutRecord.mk r net_amount ts :: out.2.1,
     fee_amount + out.2.2)

/-- `batch_payout` (lib.rs 199-313). -/
def batch_payout (st : State) (recipients : List Address) (amounts : List Int)
    (ts : Nat) : Result :=
  match st.program with
  | none => .error "Program not initialized"
  | some pd =>
    if recipients.length ≠ amounts.length then
      .error "Recipients and amounts vectors must have the same length"
    else if recipients.length = 0 then .error "Cannot process empty batch"
    else match validateAmounts 0 amounts with
      | .error e => .error e
      | .ok total_payout =>
        if pd.remaining_balance < total_payout then .error "Insufficient balance"
        else
          let fc := get_fee_config_internal st
          let out := runPayouts fc ts (recipients.zip amounts)
          let pd2 := { pd with remaining_balance := pd.remaining_balance - total_payout,
                               payout_history := pd.payout_history ++ out.2.1 }
          .ok ({ st with program := some pd2 }, out.1,
            (if 0 < out.2.2 then
              [Event.feeCollected "payout" out.2.2 fc.payout_fee_rate fc.fee_recipient]
             else []) ++
            [Event.batchPaid pd2.program_id recipients.length total_payout
              pd2.remaining_balance])

/-- `single_payout` (lib.rs 323-403). -/
def single_payout (st : State) (recipient : Address) (amount : Int) (ts : Nat) :
    Result :=
  match st.program with
  | none => .error "Program not initialized"
  | some pd =>
    if amount ≤ 0 then .error "Amount must be greater than zero"
    else if pd.remaining_balance < amount then .error "Insufficient balance"
    else
      let fc := get_fee_config_internal st
      let fee_amount := payoutFee fc amount
      let net_amount := amount - fee_amount
      let pd2 := { pd with remaining_balance := pd.remaining_balance - amount,
                           payout_history :=
                             pd.payout_history ++ [PayoutRecord.mk recipient net_amount ts] }
      .ok ({ st with program := some pd2 },
        Transfer.mk contractAddr recipient net_amount ::
          (if 0 < fee_amount then [Transfer.mk contractAddr fc.fee_recipient fee_amount]
           else []),
        (if 0 < fee_amount then
          [Event.feeCollected "payout" fee_amount fc.payout_fee_rate fc.fee_recipient]
         else []) ++
        [Event.paid pd2.program_id recipient net_amount pd2.remaining_balance])

/-- The `lock_fee_rate` branch of `update_fee_config` (lib.rs 457-462). -/
def applyLockRate (fc : FeeConfig) : Option Int → Except String FeeConfig
  | none => .ok fc
  | some rate =>
    if rate < 0 ∨ MAX_FEE_RATE < rate then .error "Invalid lock fee rate"
    else .ok { fc with lock_fee_rate := rate }

/-- The `payout_fee_rate` branch of `update_fee_config` (lib.rs 464-469). -/
def applyPayoutRate (fc : FeeConfig) : Option Int → Except String FeeConfig
  | none => .ok fc
  | some rate =>
    if rate < 0 ∨ MAX_FEE_RATE < rate then .error "Invalid payout fee rate"
    else .ok { fc with payout_fee_rate := rate }

/-- `update_fee_config` of the program escrow (lib.rs 437-491). -/
def update_fee_config (st : State) (lock_fee_rate payout_fee_rate : Option Int)
    (fee_recipient : Option Address) (fee_enabled : Option Bool) : Result :=
  match st.program with
  | none => .error "Program not initialized"
  | some _ =>
    match applyLockRate (get_fee_config_internal st) lock_fee_rate with
    | .error e => .error e
    | .ok fc1 =>
      match applyPayoutRate fc1 payout_fee_rate with
      | .error e => .error e
      | .ok fc2 =>
        let fc3 := match fee_recipient with
          | some r => { fc2 with fee_recipient := r }
          | none => fc2
        let fc4 := match fee_enabled with
          | some en => { fc3 with fee_enabled := en }
          | none => fc3
        .ok ({ st with feeConfig := some fc4 }, [], [])

/-- The public entry points that mutate program storage. -/
inductive Op where
  | initProgram (pid : String) (key token : Address)
  | lockFunds (amount : Int)
  | singlePayout (recipient : Address) (amount : Int) (ts : Nat)
  | batchPayout (recipients : List Address) (amounts : List Int) (ts : Nat)
  | updateFee (lr pr : Option Int) (recip : Option Address) (en : Option Bool)

/-- Dispatch one invocation. -/
def applyOp (st : State) : Op → Result
  | .initProgram pid key token => init_program st pid key token
  | .lockFunds amount => lock_program_funds st amount
  | .singlePayout recipient amount ts => single_payout st recipient amount ts
  | .batchPayout recipients amounts ts => batch_payout st recipients amounts ts
  | .updateFee lr pr recip en => update_fee_config st lr pr recip en

/-- One invocation as seen on storage: an abort is rolled back by the host,
leaving the state unchanged. -/
def step (st : State) (op : Op) : State :=
  match applyOp st op with
  | .ok (st2, _, _) => st2
  | .error _ => st

/-- Storage before any invocation. -/
def initialState : State := ⟨none, none⟩

/-- Run a sequence of invocations from empty storage. -/
def run (ops : List Op) : State := ops.foldl step initialState

/-- The stored `total_funds` (`0` while uninitialized). -/
def totalFundsOf (st : State) : Int :=
  match st.program with
  | none => 0
  | some pd => pd.total_funds

/-- The stored `remaining_balance` (`0` while uninitialized). -/
def remainingOf (st : State) : Int :=
  match st.program with
  | none => 0
  | some pd => pd.remaining_balance

/-- Both stored fee rates are in the validated band. -/
def feeCfgOK (fc : FeeConfig) : Prop :=
  0 ≤ fc.lock_fee_rate ∧ fc.lock_fee_rate ≤ MAX_FEE_RATE ∧
  0 ≤ fc.payout_fee_rate ∧ fc.payout_fee_rate ≤ MAX_FEE_RATE

/-- The storage invariant: a non-negative remaining balance and validated
fee rates. -/
def Inv (st : State) : Prop :=
  (∀ pd, st.program = some pd → 0 ≤ pd.remaining_balance) ∧
  (∀ fc, st.feeConfig = some fc → feeCfgOK fc)

end ProgramEscrow

namespace BountyEscrow

/-- `Error` (lib.rs 11-21). -/
inductive Error where
  | AlreadyInitialized
  | NotInitialized
  | BountyExists
  | BountyNotFound
  | FundsNotLocked
  | DeadlineNotPassed
  | Unauthorized
  | InvalidFeeRate
  | FeeRecipientNotSet
deriving DecidableEq

/-- How an invocation fails: a typed `Error` returned to the caller, or a host
trap (`unwrap` of absent storage). -/
inductive CallFailure where
  | err (e : Error)
  | trap
deriving DecidableEq

/-- `EscrowStatus` (lib.rs 25-29). -/
inductive EscrowStatus where
  | Locked
  | Released
  | Refunded
deriving DecidableEq

/-- `Escrow` (lib.rs 33-38). -/
structure Escrow where
  depositor : Address
  amount : Int
  status : EscrowStatus
  deadline : Nat
deriving DecidableEq

/-- `FeeConfig` (lib.rs 42-47). -/
structure FeeConfig where
  lock_fee_rate : Int
  release_fee_rate : Int
  fee_recipient : Address
  fee_enabled : Bool
deriving DecidableEq

/-- The `Admin` and `Token` instance keys, both written exactly once by
`init`. -/
structure AdminCfg where
  admin : Address
  token : Address
deriving DecidableEq

/-- Contract storage: admin config, fee config, and the per-bounty persistent
`Escrow(bounty_id)` records. -/
structure State where
  cfg : Option AdminCfg
  feeConfig : Option FeeConfig
  escrows : Nat → Option Escrow

/-- An invocation either fails (rolled back by the host) or succeeds with the
new state and the transfers issued to the token client. -/
abbrev BResult := Except CallFailure (State × List Transfer)

/-- `calculate_fee` of the bounty escrow (lib.rs 97-107). -/
def calculate_fee (amount fee_rate : Int) : Int :=
  if fee_rate = 0 then 0
  else ((checked_mul amount fee_rate).bind fun x => checked_div x BASIS_POINTS).getD 0

/-- `get_fee_config_internal` (lib.rs 110-120): defaults to a disabled
zero-rate config pointing at the stored admin. -/
def get_fee_config_internal (st : State) (admin : Address) : FeeConfig :=
  st.feeConfig.getD ⟨0, 0, admin, false⟩

/-- `init` (lib.rs 68-94). -/
def init (st : State) (admin token : Address) : BResult :=
  if st.cfg.isSome then .error (.err .AlreadyInitialized)
  else .ok ({ st with cfg := some ⟨admin, token⟩,
                      feeConfig := some ⟨0, 0, admin, false⟩ }, [])

/-- The fee taken by `lock_funds` (lib.rs 205-209). -/
def lockFee (fc : FeeConfig) (amount : Int) : Int :=
  if fc.fee_enabled = true ∧ 0 < fc.lock_fee_rate then calculate_fee amount fc.lock_fee_rate
  else 0

/-- The fee taken by `release_funds` (lib.rs 279-283). -/
def releaseFee (fc : FeeConfig) (amount : Int) : Int :=
  if fc.fee_enabled = true ∧ 0 < fc.release_fee_rate then
    calculate_fee amount fc.release_fee_rate
  else 0

/-- `lock_funds` (lib.rs 183-252): transfers the net amount to the contract,
the fee (when positive) to the fee recipient, and persists a `Locked` record
holding the net amount. -/
def lock_funds (st : State) (depositor : Address) (bounty_id : Nat) (amount : Int)
    (deadline : Nat) : BResult :=
  match st.cfg with
  | none => .error (.err .NotInitialized)
  | some c =>
    if (st.escrows bounty_id).isSome then .error (.err .BountyExists)
    else
      let fc := get_fee_config_internal st c.admin
      let fee_amount := lockFee fc amount
      let net_amount := amount - fee_amount
      .ok ({ st with escrows := fun j =>
              if j = bounty_id then some ⟨depositor, net_amount, .Locked, deadline⟩
              else st.escrows j },
           Transfer.mk depositor contractAddr net_amount ::
             (if 0 < fee_amount then [Transfer.mk depositor fc.fee_recipient fee_amount]
              else []))

/-- `release_funds` (lib.rs 256-319). -/
def release_funds (st : State) (bounty_id : Nat) (contributor : Address) : BResult :=
  match st.cfg with
  | none => .error (.err .NotInitialized)
  | some c =>
    match st.escrows bounty_id with
    | none => .error (.err .BountyNotFound)
    | some escrow =>
      if escrow.status ≠ .Locked then .error (.err .FundsNotLocked)
      else
        let fc := get_fee_config_internal st c.admin
        let fee_amount := releaseFee fc escrow.amount
        let net_amount := escrow.amount - fee_amount
        .ok ({ st with escrows := fun j =>
                if j = bounty_id then some { escrow with status := .Released }
                else st.escrows j },
             Transfer.mk contractAddr contributor net_amount ::
               (if 0 < fee_amount then [Transfer.mk contractAddr fc.fee_recipient fee_amount]
                else []))

/-- `refund` (lib.rs 322-364): permissionless, checks the record and the
deadline before touching the token; the full stored amount goes back to the
depositor with no fee. The `Token` unwrap happens only after the checks, so an
uninitialized contract traps there. -/
def refund (st : State) (bounty_id : Nat) (now : Nat) : BResult :=
  match st.escrows bounty_id with
  | none => .error (.err .BountyNotFound)
  | some escrow =>
    if escrow.status ≠ .Locked then .error (.err .FundsNotLocked)
    else if now < escrow.deadline then .error (.err .DeadlineNotPassed)
    else match st.cfg with
      | none => .error .trap
      | some _ =>
        .ok ({ st with escrows := fun j =>
                if j = bounty_id then some { escrow with status := .Refunded }
                else st.escrows j },
             [Transfer.mk contractAddr escrow.depositor escrow.amount])

/-- The `lock_fee_rate` branch of `update_fee_config` (lib.rs 139-144). -/
def applyLockRate (fc : FeeConfig) : Option Int → Except CallFailure FeeConfig
  | none => .ok fc
  | some rate =>
    if rate < 0 ∨ MAX_FEE_RATE < rate then .error (.err .InvalidFeeRate)
    else .ok { fc with lock_fee_rate := rate }

/-- The `release_fee_rate` branch of `update_fee_config` (lib.rs 146-151). -/
def applyReleaseRate (fc : FeeConfig) : Option Int → Except CallFailure FeeConfig
  | none => .ok fc
  | some rate =>
    if rate < 0 ∨ MAX_FEE_RATE < rate then .error (.err .InvalidFeeRate)
    else .ok { fc with release_fee_rate := rate }

/-- `update_fee_config` of the bounty escrow (lib.rs 123-175). -/
def update_fee_config (st : State) (lock_fee_rate release_fee_rate : Option Int)
    (fee_recipient : Option Address) (fee_enabled : Option Bool) : BResult :=
  match st.cfg with
  | none => .error (.err .NotInitialized)
  | some c =>
    match applyLockRate (get_fee_config_internal st c.admin) lock_fee_rate with
    | .error e => .error e
    | .ok fc1 =>
      match applyReleaseRate fc1 release_fee_rate with
      | .error e => .error e
      | .ok fc2 =>
        let fc3 := match fee_recipient with
          | some r => { fc2 with fee_recipient := r }
          | none => fc2
        let fc4 := match fee_enabled with
          | some en => { fc3 with fee_enabled := en }
          | none => fc3
        .ok ({ st with feeConfig := some fc4 }, [])

/-- The public entry points that mutate bounty-escrow storage. -/
inductive Op where
  | initOp (admin token : Address)
  | updateFee (lr rr : Option Int) (recip : Option Address) (en : Option Bool)
  | lock (depositor : Address) (id : Nat) (amount : Int) (deadline : Nat)
  | release (id : Nat) (contributor : Address)
  | refundOp (id : Nat) (now : Nat)

/-- Dispatch one invocation. -/
def applyOp (st : State) : Op → BResult
  | .initOp admin token => init st admin token
  | .updateFee lr rr recip en => update_fee_config st lr rr recip en
  | .lock depositor id amount deadline => lock_funds st depositor id amount deadline
  | .release id contributor => release_funds st id contributor
  | .refundOp id now => refund st id now

/-- One invocation as seen on storage: a failure is rolled back by the host,
leaving the state unchanged. -/
def step (st : State) (op : Op) : State :=
  match applyOp st op with
  | .ok (st2, _) => st2
  | .error _ => st

end BountyEscrow


-- ## Concrete storage snapshots used by the witnesses

/-- A program account with 400 spendable units and fees disabled. -/
def pLow : ProgramEscrow.State := ⟨some ⟨"p", 600, 400, 7, [], 9⟩, some ⟨0, 0, 7, false⟩⟩

/-- A program account with 600 spendable units and fees disabled. -/
def pHigh : ProgramEscrow.State := ⟨some ⟨"p", 600, 600, 7, [], 9⟩, some ⟨0, 0, 7, false⟩⟩

/-- A program account with a 1% lock fee enabled (recipient 8). -/
def pFee : ProgramEscrow.State := ⟨some ⟨"p", 0, 0, 7, [], 9⟩, some ⟨100, 0, 8, true⟩⟩

/-- An initialized bounty escrow with one `Released` record under id 0. -/
def bReleased : BountyEscrow.State :=
  ⟨some ⟨1, 2⟩, some ⟨0, 0, 1, false⟩,
    fun j => if j = 0 then some ⟨3, 990, .Released, 50⟩ else none⟩

/-- An initialized bounty escrow with one `Locked` record (amount 500,
deadline 100) under id 0. -/
def bLocked : BountyEscrow.State :=
  ⟨some ⟨1, 2⟩, some ⟨0, 0, 1, false⟩,
    fun j => if j = 0 then some ⟨3, 500, .Locked, 100⟩ else none⟩

/-- An initialized bounty escrow with a 1% lock fee enabled (recipient 9)
and no records. -/
def bFee : BountyEscrow.State :=
  ⟨some ⟨1, 2⟩, some ⟨100, 0, 9, true⟩, fun _ => none⟩

-- ## Arithmetic facts about the fee computation

theorem calculate_fee_no_overflow (a r : Int) (ha : 0 ≤ a) (hr : 0 < r)
    (hov : a * r ≤ i128Max) :
    BountyEscrow.calculate_fee a r = a * r / BASIS_POINTS := by
  have hmul : 0 ≤ a * r := mul_nonneg ha (le_of_lt hr)
  have hlo : i128Min ≤ a * r := le_trans (by norm_num [i128Min]) hmul
  unfold BountyEscrow.calculate_fee
  rw [if_neg (by omega)]
  unfold checked_mul checked_div
  rw [if_pos ⟨hlo, hov⟩]
  simp only [Option.some_bind]
  rw [if_neg (by norm_num [BASIS_POINTS])]
  simp only [Option.getD_some]
  exact Int.tdiv_eq_ediv hmul (by norm_num [BASIS_POINTS])

theorem calculate_fee_overflow (a r : Int) (hr : r ≠ 0)
    (hov : a * r < i128Min ∨ i128Max < a * r) :
    BountyEscrow.calculate_fee a r = 0 := by
  unfold BountyEscrow.calculate_fee
  rw [if_neg hr]
  unfold checked_mul
  rw [if_neg (by omega)]
  rfl

theorem program_fee_eq_bounty_fee (a r : Int) :
    ProgramEscrow.calculate_fee a r = BountyEscrow.calculate_fee a r := rfl

/-- For a non-negative amount and a rate in the validated band, the fee is
between `0` and the amount. -/
theorem calculate_fee_bounds (a r : Int) (ha : 0 ≤ a) (hr0 : 0 ≤ r)
    (hr1 : r ≤ MAX_FEE_RATE) :
    0 ≤ BountyEscrow.calculate_fee a r ∧ BountyEscrow.calculate_fee a r ≤ a := by
  unfold BountyEscrow.calculate_fee
  by_cases hz : r = 0
  · simp [hz]; omega
  · rw [if_neg hz]
    unfold checked_mul
    by_cases hov : i128Min ≤ a * r ∧ a * r ≤ i128Max
    · rw [if_pos hov]
      simp only [Option.some_bind]
      unfold checked_div
      rw [if_neg (by norm_num [BASIS_POINTS])]
      simp only [Option.getD_some]
      have hmul : 0 ≤ a * r := mul_nonneg ha hr0
      rw [Int.tdiv_eq_ediv hmul (by norm_num [BASIS_POINTS])]
      constructor
      · exact Int.ediv_nonneg hmul (by norm_num [BASIS_POINTS])
      · have h1 : a * r ≤ a * BASIS_POINTS := by
          apply mul_le_mul_of_nonneg_left _ ha
          norm_num [BASIS_POINTS, MAX_FEE_RATE] at hr1 ⊢
          omega
        calc a * r / BASIS_POINTS ≤ a * BASIS_POINTS / BASIS_POINTS :=
              Int.ediv_le_ediv (by norm_num [BASIS_POINTS]) h1
          _ = a := Int.mul_ediv_cancel a (by norm_num [BASIS_POINTS])
    · rw [if_neg hov]
      simpa using ha

/-- For a non-positive amount and a rate in the validated band, the fee is
between the amount and `0` (so the net amount stays non-positive). -/
theorem calculate_fee_bounds_nonpos (a r : Int) (ha : a ≤ 0) (hr0 : 0 ≤ r)
    (hr1 : r ≤ MAX_FEE_RATE) :
    a ≤ BountyEscrow.calculate_fee a r ∧ BountyEscrow.calculate_fee a r ≤ 0 := by
  unfold BountyEscrow.calculate_fee
  by_cases hz : r = 0
  · simp [hz]; omega
  · rw [if_neg hz]
    unfold checked_mul
    by_cases hov : i128Min ≤ a * r ∧ a * r ≤ i128Max
    · rw [if_pos hov]
      simp only [Option.some_bind]
      unfold checked_div
      rw [if_neg (by norm_num [BASIS_POINTS])]
      simp only [Option.getD_some]
      have hmul : a * r ≤ 0 := mul_nonpos_iff.mpr (Or.inr ⟨ha, hr0⟩)
      have hneg : 0 ≤ -(a * r) := by omega
      have hrw : Int.tdiv (a * r) BASIS_POINTS = -(Int.tdiv (-(a * r)) BASIS_POINTS) := by
        rw [← Int.neg_tdiv, neg_neg]
      rw [hrw, Int.tdiv_eq_ediv hneg (by norm_num [BASIS_POINTS])]
      have hub : -(a * r) ≤ -a * BASIS_POINTS := by
        have h0 : -a * r ≤ -a * BASIS_POINTS := by
          apply mul_le_mul_of_nonneg_left _ (by omega)
          norm_num [BASIS_POINTS, MAX_FEE_RATE] at hr1 ⊢
          omega
        linarith [h0]
      have h2 : -(a * r) / BASIS_POINTS ≤ -a := by
        calc -(a * r) / BASIS_POINTS ≤ -a * BASIS_POINTS / BASIS_POINTS :=
              Int.ediv_le_ediv (by norm_num [BASIS_POINTS]) hub
          _ = -a := Int.mul_ediv_cancel (-a) (by norm_num [BASIS_POINTS])
      have h3 : 0 ≤ -(a * r) / BASIS_POINTS :=
        Int.ediv_nonneg hneg (by norm_num [BASIS_POINTS])
      omega
    · rw [if_neg hov]
      simpa using ha

-- ## The batch pre-flight validation and the transfer loop

theorem validateAmounts_ok (amounts : List Int) : ∀ acc : Int, 0 ≤ acc →
    (∀ a ∈ amounts, 0 < a) → acc + amounts.sum ≤ i128Max →
    ProgramEscrow.validateAmounts acc amounts = .ok (acc + amounts.sum) := by
  induction amounts with
  | nil => intro acc _ _ _; simp [ProgramEscrow.validateAmounts]
  | cons a rest ih =>
    intro acc hacc hpos hsum
    have hapos : 0 < a := hpos a (by simp)
    have hrest : ∀ x ∈ rest, 0 < x := fun x hx => hpos x (by simp [hx])
    have hrsum : 0 ≤ rest.sum := List.sum_nonneg fun x hx => le_of_lt (hrest x hx)
    rw [List.sum_cons] at hsum
    have hmin : i128Min ≤ acc + a := by
      have h0 : i128Min ≤ (0 : Int) := by norm_num [i128Min]
      omega
    have hadd : checked_add acc a = some (acc + a) := by
      unfold checked_add
      rw [if_pos ⟨hmin, by omega⟩]
    unfold ProgramEscrow.validateAmounts
    rw [if_neg (by omega), hadd]
    dsimp only
    rw [ih (acc + a) (by omega) hrest (by omega)]
    rw [List.sum_cons]
    congr 1
    ring

theorem runPayouts_records (fc : ProgramEscrow.FeeConfig) (ts : Nat)
    (pairs : List (Address × Int)) :
    (ProgramEscrow.runPayouts fc ts pairs).2.1 =
      pairs.map fun p => ⟨p.1, p.2 - ProgramEscrow.payoutFee fc p.2, ts⟩ := by
  induction pairs with
  | nil => rfl
  | cons q rest ih =>
    cases q with
    | mk r a => simp only [ProgramEscrow.runPayouts, List.map_cons, ih]

theorem runPayouts_transfers (fc : ProgramEscrow.FeeConfig) (ts : Nat)
    (pairs : List (Address × Int)) :
    ∀ p ∈ pairs,
      Transfer.mk contractAddr p.1 (p.2 - ProgramEscrow.payoutFee fc p.2) ∈
        (ProgramEscrow.runPayouts fc ts pairs).1 := by
  induction pairs with
  | nil => intro p hp; cases hp
  | cons q rest ih =>
    intro p hp
    cases q with
    | mk r a =>
      rcases List.mem_cons.mp hp with hq | hq
      · subst hq
        simp [ProgramEscrow.runPayouts]
      · have hm := ih p hq
        simp only [ProgramEscrow.runPayouts]
        exact List.mem_cons_of_mem _ (List.mem_append_right _ hm)

-- ## Fee-config bounds helpers

theorem program_getCfg_feeOK (st : ProgramEscrow.State) (h : ProgramEscrow.Inv st) :
    ProgramEscrow.feeCfgOK (ProgramEscrow.get_fee_config_internal st) := by
  unfold ProgramEscrow.get_fee_config_internal
  cases hc : st.feeConfig with
  | none =>
    simp only [Option.getD_none]
    refine ⟨le_refl 0, by norm_num [MAX_FEE_RATE], le_refl 0, by norm_num [MAX_FEE_RATE]⟩
  | some fc => simpa using h.2 fc hc

theorem program_lockFee_bounds (fc : ProgramEscrow.FeeConfig) (a : Int)
    (hfc : ProgramEscrow.feeCfgOK fc) (ha : 0 ≤ a) :
    0 ≤ ProgramEscrow.lockFee fc a ∧ ProgramEscrow.lockFee fc a ≤ a := by
  unfold ProgramEscrow.lockFee
  split
  · exact program_fee_eq_bounty_fee a fc.lock_fee_rate ▸
      calculate_fee_bounds a fc.lock_fee_rate ha hfc.1 hfc.2.1
  · exact ⟨le_refl 0, ha⟩

theorem program_payoutFee_bounds (fc : ProgramEscrow.FeeConfig) (a : Int)
    (hfc : ProgramEscrow.feeCfgOK fc) (ha : 0 ≤ a) :
    0 ≤ ProgramEscrow.payoutFee fc a ∧ ProgramEscrow.payoutFee fc a ≤ a := by
  unfold ProgramEscrow.payoutFee
  split
  · exact program_fee_eq_bounty_fee a fc.payout_fee_rate ▸
      calculate_fee_bounds a fc.payout_fee_rate ha hfc.2.2.1 hfc.2.2.2
  · exact ⟨le_refl 0, ha⟩

theorem bounty_lockFee_nonpos (fc : BountyEscrow.FeeConfig) (a : Int)
    (hr0 : 0 ≤ fc.lock_fee_rate) (hr1 : fc.lock_fee_rate ≤ MAX_FEE_RATE) (ha : a ≤ 0) :
    a ≤ BountyEscrow.lockFee fc a ∧ BountyEscrow.lockFee fc a ≤ 0 := by
  unfold BountyEscrow.lockFee
  split
  · exact calculate_fee_bounds_nonpos a fc.lock_fee_rate ha hr0 hr1
  · exact ⟨ha, le_refl 0⟩

-- ## Program storage invariant: preserved by every entry point

theorem lock_ok_inv (st : ProgramEscrow.State) (amount : Int)
    (st2 : ProgramEscrow.State) (tr : List Transfer) (evs : List ProgramEscrow.Event)
    (h : ProgramEscrow.Inv st)
    (hres : ProgramEscrow.lock_program_funds st amount = .ok (st2, tr, evs)) :
    ProgramEscrow.Inv st2 := by
  unfold ProgramEscrow.lock_program_funds at hres
  split at hres
  · exact absurd hres (by simp)
  · split at hres
    · exact absurd hres (by simp)
    · next hle pd hpd =>
      simp only [Except.ok.injEq, Prod.mk.injEq] at hres
      obtain ⟨h1, h2, h3⟩ := hres
      subst h1
      constructor
      · intro pd2 hpd2
        simp only [Option.some.injEq] at hpd2
        subst hpd2
        have hfc := program_getCfg_feeOK st h
        have hb := program_lockFee_bounds _ amount hfc (by omega)
        have hrb := h.1 pd hpd
        simp only
        omega
      · intro fc hfc
        exact h.2 fc hfc

theorem init_ok_inv (st : ProgramEscrow.State) (pid : String) (key token : Address)
    (st2 : ProgramEscrow.State) (tr : List Transfer) (evs : List ProgramEscrow.Event)
    (hres : ProgramEscrow.init_program st pid key token = .ok (st2, tr, evs)) :
    ProgramEscrow.Inv st2 := by
  unfold ProgramEscrow.init_program at hres
  split at hres
  · exact absurd hres (by simp)
  · simp only [Except.ok.injEq, Prod.mk.injEq] at hres
    obtain ⟨h1, h2, h3⟩ := hres
    subst h1
    constructor
    · intro pd2 hpd2
      simp only [Option.some.injEq] at hpd2
      subst hpd2
      simp
    · intro fc hfc
      simp only [Option.some.injEq] at hfc
      subst hfc
      exact ⟨le_refl 0, by norm_num [MAX_FEE_RATE], le_refl 0, by norm_num [MAX_FEE_RATE]⟩

theorem single_ok_inv (st : ProgramEscrow.State) (recipient : Address) (amount : Int)
    (ts : Nat) (st2 : ProgramEscrow.State) (tr : List Transfer)
    (evs : List ProgramEscrow.Event) (h : ProgramEscrow.Inv st)
    (hres : ProgramEscrow.single_payout st recipient amount ts = .ok (st2, tr, evs)) :
    ProgramEscrow.Inv st2 := by
  unfold ProgramEscrow.single_payout at hres
  split at hres
  · exact absurd hres (by simp)
  · next pd hpd =>
    split at hres
    · exact absurd hres (by simp)
    · split at hres
      · exact absurd hres (by simp)
      · next hb =>
        simp only [Except.ok.injEq, Prod.mk.injEq] at hres
        obtain ⟨h1, h2, h3⟩ := hres
        subst h1
        constructor
        · intro pd2 hpd2
          simp only [Option.some.injEq] at hpd2
          subst hpd2
          simp only
          omega
        · intro fc hfc
          exact h.2 fc hfc

theorem batch_ok_inv (st : ProgramEscrow.State) (recipients : List Address)
    (amounts : List Int) (ts : Nat) (st2 : ProgramEscrow.State) (tr : List Transfer)
    (evs : List ProgramEscrow.Event) (h : ProgramEscrow.Inv st)
    (hres : ProgramEscrow.batch_payout st recipients amounts ts = .ok (st2, tr, evs)) :
    ProgramEscrow.Inv st2 := by
  unfold ProgramEscrow.batch_payout at hres
  split at hres
  · exact absurd hres (by simp)
  · next pd hpd =>
    split at hres
    · exact absurd hres (by simp)
    · split at hres
      · exact absurd hres (by simp)
      · split at hres
        · exact absurd hres (by simp)
        · next total hval =>
          split at hres
          · exact absurd hres (by simp)
          · next hb =>
            simp only [Except.ok.injEq, Prod.mk.injEq] at hres
            obtain ⟨h1, h2, h3⟩ := hres
            subst h1
            constructor
            · intro pd2 hpd2
              simp only [Option.some.injEq] at hpd2
              subst hpd2
              simp only
              omega
            · intro fc hfc
              exact h.2 fc hfc

theorem applyLockRate_ok (fc fc2 : ProgramEscrow.FeeConfig) (o : Option Int)
    (hfc : ProgramEscrow.feeCfgOK fc)
    (h : ProgramEscrow.applyLockRate fc o = .ok fc2) : ProgramEscrow.feeCfgOK fc2 := by
  cases o with
  | none =>
    simp only [ProgramEscrow.applyLockRate, Except.ok.injEq] at h
    subst h; exact hfc
  | some rate =>
    simp only [ProgramEscrow.applyLockRate] at h
    split at h
    · exact absurd h (by simp)
    · next hr =>
      simp only [Except.ok.injEq] at h
      subst h
      push_neg at hr
      exact ⟨hr.1, hr.2, hfc.2.2.1, hfc.2.2.2⟩

theorem applyPayoutRate_ok (fc fc2 : ProgramEscrow.FeeConfig) (o : Option Int)
    (hfc : ProgramEscrow.feeCfgOK fc)
    (h : ProgramEscrow.applyPayoutRate fc o = .ok fc2) : ProgramEscrow.feeCfgOK fc2 := by
  cases o with
  | none =>
    simp only [ProgramEscrow.applyPayoutRate, Except.ok.injEq] at h
    subst h; exact hfc
  | some rate =>
    simp only [ProgramEscrow.applyPayoutRate] at h
    split at h
    · exact absurd h (by simp)
    · next hr =>
      simp only [Except.ok.injEq] at h
      subst h
      push_neg at hr
      exact ⟨hfc.1, hfc.2.1, hr.1, hr.2⟩

theorem update_ok_inv (st : ProgramEscrow.State) (lr pr : Option Int)
    (recip : Option Address) (en : Option Bool) (st2 : ProgramEscrow.State)
    (tr : List Transfer) (evs : List ProgramEscrow.Event) (h : ProgramEscrow.Inv st)
    (hres : ProgramEscrow.update_fee_config st lr pr recip en = .ok (st2, tr, evs)) :
    ProgramEscrow.Inv st2 := by
  unfold ProgramEscrow.update_fee_config at hres
  split at hres
  · exact absurd hres (by simp)
  · split at hres
    · exact absurd hres (by simp)
    · next fc1 hfc1 =>
      split at hres
      · exact absurd hres (by simp)
      · next fc2 hfc2 =>
        simp only [Except.ok.injEq, Prod.mk.injEq] at hres
        obtain ⟨h1, h2, h3⟩ := hres
        subst h1
        have hok1 : ProgramEscrow.feeCfgOK fc1 :=
          applyLockRate_ok _ _ _ (program_getCfg_feeOK st h) hfc1
        have hok2 : ProgramEscrow.feeCfgOK fc2 := applyPayoutRate_ok _ _ _ hok1 hfc2
        constructor
        · intro pd2 hpd2
          exact h.1 pd2 hpd2
        · intro fc hfc
          simp only [Option.some.injEq] at hfc
          subst hfc
          cases recip <;> cases en <;>
            simpa [ProgramEscrow.feeCfgOK] using hok2

theorem inv_step (st : ProgramEscrow.State) (op : ProgramEscrow.Op)
    (h : ProgramEscrow.Inv st) : ProgramEscrow.Inv (ProgramEscrow.step st op) := by
  unfold ProgramEscrow.step
  cases hres : ProgramEscrow.applyOp st op with
  | error e => exact h
  | ok out =>
    obtain ⟨st2, tr, evs⟩ := out
    simp only [ProgramEscrow.applyOp] at hres
    cases op with
    | initProgram pid key token => exact init_ok_inv st pid key token st2 tr evs hres
    | lockFunds amount => exact lock_ok_inv st amount st2 tr evs h hres
    | singlePayout recipient amount ts =>
      exact single_ok_inv st recipient amount ts st2 tr evs h hres
    | batchPayout recipients amounts ts =>
      exact batch_ok_inv st recipients amounts ts st2 tr evs h hres
    | updateFee lr pr recip en => exact update_ok_inv st lr pr recip en st2 tr evs h hres

theorem init_ok_total (st : ProgramEscrow.State) (pid : String) (key token : Address)
    (st2 : ProgramEscrow.State) (tr : List Transfer) (evs : List ProgramEscrow.Event)
    (hres : ProgramEscrow.init_program st pid key token = .ok (st2, tr, evs)) :
    ProgramEscrow.totalFundsOf st ≤ ProgramEscrow.totalFundsOf st2 := by
  unfold ProgramEscrow.init_program at hres
  split at hres
  · exact absurd hres (by simp)
  · next hnone =>
    simp only [Except.ok.injEq, Prod.mk.injEq] at hres
    obtain ⟨h1, h2, h3⟩ := hres
    subst h1
    have hn : st.program = none := by
      cases hp : st.program with
      | none => rfl
      | some pd => rw [hp] at hnone; simp at hnone
    unfold ProgramEscrow.totalFundsOf
    rw [hn]

theorem lock_ok_total (st : ProgramEscrow.State) (amount : Int)
    (st2 : ProgramEscrow.State) (tr : List Transfer) (evs : List ProgramEscrow.Event)
    (h : ProgramEscrow.Inv st)
    (hres : ProgramEscrow.lock_program_funds st amount = .ok (st2, tr, evs)) :
    ProgramEscrow.totalFundsOf st ≤ ProgramEscrow.totalFundsOf st2 := by
  unfold ProgramEscrow.lock_program_funds at hres
  split at hres
  · exact absurd hres (by simp)
  · split at hres
    · exact absurd hres (by simp)
    · next hle pd hpd =>
      simp only [Except.ok.injEq, Prod.mk.injEq] at hres
      obtain ⟨h1, h2, h3⟩ := hres
      subst h1
      have hfc := program_getCfg_feeOK st h
      have hb := program_lockFee_bounds _ amount hfc (by omega)
      unfold ProgramEscrow.totalFundsOf
      rw [hpd]
      simp only
      omega

theorem single_ok_total (st : ProgramEscrow.State) (recipient : Address) (amount : Int)
    (ts : Nat) (st2 : ProgramEscrow.State) (tr : List Transfer)
    (evs : List ProgramEscrow.Event)
    (hres : ProgramEscrow.single_payout st recipient amount ts = .ok (st2, tr, evs)) :
    ProgramEscrow.totalFundsOf st ≤ ProgramEscrow.totalFundsOf st2 := by
  unfold ProgramEscrow.single_payout at hres
  split at hres
  · exact absurd hres (by simp)
  · next pd hpd =>
    split at hres
    · exact absurd hres (by simp)
    · split at hres
      · exact absurd hres (by simp)
      · simp only [Except.ok.injEq, Prod.mk.injEq] at hres
        obtain ⟨h1, h2, h3⟩ := hres
        subst h1
        unfold ProgramEscrow.totalFundsOf
        rw [hpd]

theorem batch_ok_total (st : ProgramEscrow.State) (recipients : List Address)
    (amounts : List Int) (ts : Nat) (st2 : ProgramEscrow.State) (tr : List Transfer)
    (evs : List ProgramEscrow.Event)
    (hres : ProgramEscrow.batch_payout st recipients amounts ts = .ok (st2, tr, evs)) :
    ProgramEscrow.totalFundsOf st ≤ ProgramEscrow.totalFundsOf st2 := by
  unfold ProgramEscrow.batch_payout at hres
  split at hres
  · exact absurd hres (by simp)
  · next pd hpd =>
    split at hres
    · exact absurd hres (by simp)
    · split at hres
      · exact absurd hres (by simp)
      · split at hres
        · exact absurd hres (by simp)
        · split at hres
          · exact absurd hres (by simp)
          · simp only [Except.ok.injEq, Prod.mk.injEq] at hres
            obtain ⟨h1, h2, h3⟩ := hres
            subst h1
            unfold ProgramEscrow.totalFundsOf
            rw [hpd]

theorem update_ok_total (st : ProgramEscrow.State) (lr pr : Option Int)
    (recip : Option Address) (en : Option Bool) (st2 : ProgramEscrow.State)
    (tr : List Transfer) (evs : List ProgramEscrow.Event)
    (hres : ProgramEscrow.update_fee_config st lr pr recip en = .ok (st2, tr, evs)) :
    ProgramEscrow.totalFundsOf st ≤ ProgramEscrow.totalFundsOf st2 := by
  unfold ProgramEscrow.update_fee_config at hres
  split at hres
  · exact absurd hres (by simp)
  · split at hres
    · exact absurd hres (by simp)
    · split at hres
      · exact absurd hres (by simp)
      · simp only [Except.ok.injEq, Prod.mk.injEq] at hres
        obtain ⟨h1, h2, h3⟩ := hres
        subst h1
        exact le_refl _

theorem totalFunds_mono (st : ProgramEscrow.State) (op : ProgramEscrow.Op)
    (h : ProgramEscrow.Inv st) :
    ProgramEscrow.totalFundsOf st ≤ ProgramEscrow.totalFundsOf (ProgramEscrow.step st op) := by
  unfold ProgramEscrow.step
  cases hres : ProgramEscrow.applyOp st op with
  | error e => exact le_refl _
  | ok out =>
    obtain ⟨st2, tr, evs⟩ := out
    simp only [ProgramEscrow.applyOp] at hres
    cases op with
    | initProgram pid key token => exact init_ok_total st pid key token st2 tr evs hres
    | lockFunds amount => exact lock_ok_total st amount st2 tr evs h hres
    | singlePayout recipient amount ts =>
      exact single_ok_total st recipient amount ts st2 tr evs hres
    | batchPayout recipients amounts ts =>
      exact batch_ok_total st recipients amounts ts st2 tr evs hres
    | updateFee lr pr recip en => exact update_ok_total st lr pr recip en st2 tr evs hres

theorem inv_foldl (ops : List ProgramEscrow.Op) :
    ∀ st : ProgramEscrow.State, ProgramEscrow.Inv st →
      ProgramEscrow.Inv (ops.foldl ProgramEscrow.step st) := by
  induction ops with
  | nil => intro st h; exact h
  | cons op rest ih => intro st h; exact ih _ (inv_step st op h)

theorem inv_initial : ProgramEscrow.Inv ProgramEscrow.initialState := by
  constructor
  · intro pd h; exact absurd h (by simp [ProgramEscrow.initialState])
  · intro fc h; exact absurd h (by simp [ProgramEscrow.initialState])

theorem inv_run (ops : List ProgramEscrow.Op) : ProgramEscrow.Inv (ProgramEscrow.run ops) :=
  inv_foldl ops ProgramEscrow.initialState inv_initial

-- ## Claims

/-- C4 counterexample: at `a = i128Max`, `r = 1000` (a valid rate and a
non-negative amount) the checked multiply overflows, so `calculate_fee`
returns `0`, not `floor(a*r/10000)`. -/
theorem claim_C4_counterexample :
    0 ≤ i128Max ∧ (0 : Int) ≤ 1000 ∧ (1000 : Int) ≤ MAX_FEE_RATE ∧
    BountyEscrow.calculate_fee i128Max 1000 = 0 ∧
    ¬BountyEscrow.calculate_fee i128Max 1000 = i128Max * 1000 / BASIS_POINTS := by
  refine ⟨by norm_num [i128Max], by norm_num, by norm_num [MAX_FEE_RATE], ?_, ?_⟩
  · have : i128Max * 1000 > i128Max := by norm_num [i128Max]
    exact calculate_fee_overflow i128Max 1000 (by norm_num) (Or.inr this)
  · have h0 : BountyEscrow.calculate_fee i128Max 1000 = 0 := by
      have : i128Max * 1000 > i128Max := by norm_num [i128Max]
      exact calculate_fee_overflow i128Max 1000 (by norm_num) (Or.inr this)
    rw [h0]
    norm_num [i128Max, BASIS_POINTS]

/-- C4 (amended): for every rate `0 ≤ r ≤ 1000` and amount `a ≥ 0` whose
product `a * r` does not overflow i128, `calculate_fee a r = ⌊a*r/10000⌋`,
and `calculate_fee a 0 = 0`, in both variants. -/
theorem claim_C4_fee_formula (a r : Int) (ha : 0 ≤ a) (hr0 : 0 ≤ r)
    (hr1 : r ≤ MAX_FEE_RATE) (hov : a * r ≤ i128Max) :
    BountyEscrow.calculate_fee a r = a * r / BASIS_POINTS ∧
    ProgramEscrow.calculate_fee a r = a * r / BASIS_POINTS ∧
    BountyEscrow.calculate_fee a 0 = 0 ∧
    ProgramEscrow.calculate_fee a 0 = 0 := by
  have hz : BountyEscrow.calculate_fee a 0 = 0 := by
    unfold BountyEscrow.calculate_fee
    simp
  by_cases h0 : r = 0
  · subst h0
    refine ⟨by rw [hz]; norm_num, by rw [program_fee_eq_bounty_fee, hz]; norm_num, hz,
      (program_fee_eq_bounty_fee a 0).trans hz⟩
  · have h := calculate_fee_no_overflow a r ha (by omega) hov
    exact ⟨h, (program_fee_eq_bounty_fee a r).trans h, hz,
      (program_fee_eq_bounty_fee a 0).trans hz⟩

/-- C4 witness: a 1% rate on 1000 units yields a fee of 10 in both variants. -/
theorem claim_C4_witness :
    BountyEscrow.calculate_fee 1000 100 = 10 ∧ ProgramEscrow.calculate_fee 1000 100 = 10 := by
  have h := claim_C4_fee_formula 1000 100 (by norm_num) (by norm_num)
    (by norm_num [MAX_FEE_RATE]) (by norm_num [i128Max])
  exact ⟨by rw [h.1]; norm_num [BASIS_POINTS], by rw [h.2.1]; norm_num [BASIS_POINTS]⟩

/-- C8: whenever `a * r` overflows i128 (and `r ≠ 0`), `calculate_fee`
returns `0` — the fee is silently waived, not surfaced as an error — in both
variants. -/
theorem claim_C8_fee_overflow_swallowed (a r : Int) (hr : r ≠ 0)
    (hov : a * r < i128Min ∨ i128Max < a * r) :
    BountyEscrow.calculate_fee a r = 0 ∧ ProgramEscrow.calculate_fee a r = 0 := by
  have h := calculate_fee_overflow a r hr hov
  exact ⟨h, (program_fee_eq_bounty_fee a r).trans h⟩

/-- C8 witness: `i128Max * 2` overflows, so the fee is zero. -/
theorem claim_C8_witness :
    BountyEscrow.calculate_fee i128Max 2 = 0 ∧ ProgramEscrow.calculate_fee i128Max 2 = 0 :=
  claim_C8_fee_overflow_swallowed i128Max 2 (by norm_num)
    (Or.inr (by norm_num [i128Max]))

/-- C5: along every sequence of program-escrow invocations from empty storage
(aborted invocations roll back), the stored `remaining_balance` is never
negative, and one further invocation of any kind never decreases
`total_funds`. -/
theorem claim_C5_program_balance_invariants (ops : List ProgramEscrow.Op)
    (op : ProgramEscrow.Op) :
    0 ≤ ProgramEscrow.remainingOf (ProgramEscrow.run ops) ∧
    ProgramEscrow.totalFundsOf (ProgramEscrow.run ops) ≤
      ProgramEscrow.totalFundsOf (ProgramEscrow.step (ProgramEscrow.run ops) op) := by
  have hinv := inv_run ops
  constructor
  · unfold ProgramEscrow.remainingOf
    cases hp : (ProgramEscrow.run ops).program with
    | none => exact le_refl 0
    | some pd => exact hinv.1 pd hp
  · exact totalFunds_mono _ op hinv

theorem zip_get_mem (l1 : List Address) (l2 : List Int) :
    ∀ (i : Nat) (h1 : i < l1.length) (h2 : i < l2.length),
      (l1.get ⟨i, h1⟩, l2.get ⟨i, h2⟩) ∈ l1.zip l2 := by
  induction l1 generalizing l2 with
  | nil => intro i h1 h2; simp at h1
  | cons a t1 ih =>
    intro i h1 h2
    cases l2 with
    | nil => simp at h2
    | cons b t2 =>
      cases i with
      | zero => simp [List.zip_cons_cons]
      | succ n =>
        simp only [List.zip_cons_cons, List.get_cons_succ]
        exact List.mem_cons_of_mem _ (ih t2 n (by simpa using h1) (by simpa using h2))

/-- C1: batch payout with atomic admission control.  For an initialized
program and a non-empty, equal-length batch of positive amounts whose sum does
not overflow: if the sum exceeds `remaining_balance` the call aborts with the
insufficiency error, issuing no transfer and leaving storage unchanged;
otherwise it succeeds, each recipient is transferred its amount net of the
payout fee, one `PayoutRecord` with the net amount is appended per recipient,
and `remaining_balance` drops by exactly the gross sum. -/
theorem claim_C1_batch_payout_atomicity (st : ProgramEscrow.State)
    (pd : ProgramEscrow.ProgramData) (recipients : List Address)
    (amounts : List Int) (ts : Nat)
    (hpd : st.program = some pd)
    (hne : recipients ≠ [])
    (hlen : recipients.length = amounts.length)
    (hpos : ∀ a ∈ amounts, 0 < a)
    (hsum : amounts.sum ≤ i128Max) :
    (pd.remaining_balance < amounts.sum →
      ProgramEscrow.batch_payout st recipients amounts ts = .error "Insufficient balance" ∧
      ProgramEscrow.step st (.batchPayout recipients amounts ts) = st) ∧
    (amounts.sum ≤ pd.remaining_balance →
      ∃ pd2 tr evs,
        ProgramEscrow.batch_payout st recipients amounts ts =
          .ok ({ st with program := some pd2 }, tr, evs) ∧
        pd2.remaining_balance = pd.remaining_balance - amounts.sum ∧
        pd2.payout_history = pd.payout_history ++
          (recipients.zip amounts).map
            (fun p => ⟨p.1, p.2 - ProgramEscrow.payoutFee (ProgramEscrow.get_fee_config_internal st) p.2, ts⟩) ∧
        (∀ (i : Nat) (h1 : i < recipients.length) (h2 : i < amounts.length),
          Transfer.mk contractAddr (recipients.get ⟨i, h1⟩)
              (amounts.get ⟨i, h2⟩ -
                ProgramEscrow.payoutFee (ProgramEscrow.get_fee_config_internal st)
                  (amounts.get ⟨i, h2⟩)) ∈ tr)) := by
  have hva : ProgramEscrow.validateAmounts 0 amounts = .ok amounts.sum := by
    simpa using validateAmounts_ok amounts 0 (le_refl 0) hpos (by simpa using hsum)
  have hlen0 : ¬recipients.length = 0 := by
    intro h0
    exact hne (List.length_eq_zero.mp h0)
  constructor
  · intro hlt
    have herr : ProgramEscrow.batch_payout st recipients amounts ts =
        .error "Insufficient balance" := by
      unfold ProgramEscrow.batch_payout
      rw [hpd]
      dsimp only
      rw [if_neg (by omega), if_neg hlen0, hva]
      dsimp only
      rw [if_pos hlt]
    refine ⟨herr, ?_⟩
    unfold ProgramEscrow.step ProgramEscrow.applyOp
    dsimp only
    rw [herr]
  · intro hle
    have hok : ProgramEscrow.batch_payout st recipients amounts ts =
        .ok (({ st with
                  program := some
                    { pd with
                        remaining_balance := pd.remaining_balance - amounts.sum,
                        payout_history := pd.payout_history ++
                          (ProgramEscrow.runPayouts (ProgramEscrow.get_fee_config_internal st) ts
                            (recipients.zip amounts)).2.1 } } : ProgramEscrow.State),
          (ProgramEscrow.runPayouts (ProgramEscrow.get_fee_config_internal st) ts
            (recipients.zip amounts)).1,
          (if 0 < (ProgramEscrow.runPayouts (ProgramEscrow.get_fee_config_internal st) ts
                    (recipients.zip amounts)).2.2 then
             [ProgramEscrow.Event.feeCollected "payout"
                (ProgramEscrow.runPayouts (ProgramEscrow.get_fee_config_internal st) ts
                  (recipients.zip amounts)).2.2
                (ProgramEscrow.get_fee_config_internal st).payout_fee_rate
                (ProgramEscrow.get_fee_config_internal st).fee_recipient]
           else []) ++
            [ProgramEscrow.Event.batchPaid pd.program_id recipients.length amounts.sum
              (pd.remaining_balance - amounts.sum)]) := by
      unfold ProgramEscrow.batch_payout
      rw [hpd]
      dsimp only
      rw [if_neg (by omega), if_neg hlen0, hva]
      dsimp only
      rw [if_neg (by omega)]
    refine ⟨_, _, _, hok, rfl, ?_, ?_⟩
    · simp only [runPayouts_records]
    · intro i h1 h2
      exact runPayouts_transfers _ ts (recipients.zip amounts) _
        (zip_get_mem recipients amounts i h1 h2)

/-- C2: `Released`/`Refunded` are absorbing.  On a record in a terminal
status, `release_funds` and `refund` fail with `FundsNotLocked` and the
rolled-back step leaves storage unchanged; a successful `release_funds` or
`refund` starts from a `Locked` record and moves it to `Released` resp.
`Refunded` (touching no other record); `lock_funds` only creates a fresh
`Locked` record, and `init`/`update_fee_config` never touch escrow records. -/
theorem claim_C2_terminal_states_absorbing :
    (∀ (st : BountyEscrow.State) (id : Nat) (e : BountyEscrow.Escrow)
        (contributor : Address), st.escrows id = some e →
      (e.status = .Released ∨ e.status = .Refunded) → st.cfg.isSome = true →
      BountyEscrow.release_funds st id contributor = .error (.err .FundsNotLocked) ∧
      BountyEscrow.step st (.release id contributor) = st) ∧
    (∀ (st : BountyEscrow.State) (id : Nat) (e : BountyEscrow.Escrow) (now : Nat),
      st.escrows id = some e →
      (e.status = .Released ∨ e.status = .Refunded) →
      BountyEscrow.refund st id now = .error (.err .FundsNotLocked) ∧
      BountyEscrow.step st (.refundOp id now) = st) ∧
    (∀ (st st2 : BountyEscrow.State) (id : Nat) (contributor : Address)
        (tr : List Transfer),
      BountyEscrow.release_funds st id contributor = .ok (st2, tr) →
      ∃ e, st.escrows id = some e ∧ e.status = .Locked ∧
        st2.escrows id = some { e with status := .Released } ∧
        ∀ j, j ≠ id → st2.escrows j = st.escrows j) ∧
    (∀ (st st2 : BountyEscrow.State) (id : Nat) (now : Nat) (tr : List Transfer),
      BountyEscrow.refund st id now = .ok (st2, tr) →
      ∃ e, st.escrows id = some e ∧ e.status = .Locked ∧
        st2.escrows id = some { e with status := .Refunded } ∧
        ∀ j, j ≠ id → st2.escrows j = st.escrows j) ∧
    (∀ (st st2 : BountyEscrow.State) (depositor : Address) (id : Nat) (amount : Int)
        (deadline : Nat) (tr : List Transfer),
      BountyEscrow.lock_funds st depositor id amount deadline = .ok (st2, tr) →
      st.escrows id = none ∧
      (∃ rec, st2.escrows id = some rec ∧ rec.status = .Locked) ∧
      ∀ j, j ≠ id → st2.escrows j = st.escrows j) ∧
    (∀ (st st2 : BountyEscrow.State) (lr rr : Option Int) (recip : Option Address)
        (en : Option Bool) (tr : List Transfer),
      BountyEscrow.update_fee_config st lr rr recip en = .ok (st2, tr) →
      st2.escrows = st.escrows) ∧
    (∀ (st st2 : BountyEscrow.State) (a t : Address) (tr : List Transfer),
      BountyEscrow.init st a t = .ok (st2, tr) → st2.escrows = st.escrows) := by
  have hterm : ∀ e : BountyEscrow.Escrow,
      (e.status = .Released ∨ e.status = .Refunded) → ¬¬(e.status ≠ .Locked) := by
    intro e he
    rcases he with h | h <;> simp [h]
  refine ⟨?_, ?_, ?_, ?_, ?_, ?_, ?_⟩
  · intro st id e contributor hpd he hsome
    obtain ⟨c, hc⟩ := Option.isSome_iff_exists.mp hsome
    have herr : BountyEscrow.release_funds st id contributor =
        .error (.err .FundsNotLocked) := by
      unfold BountyEscrow.release_funds
      rw [hc]
      dsimp only
      rw [hpd]
      dsimp only
      rw [if_pos (not_not.mp (hterm e he))]
    refine ⟨herr, ?_⟩
    unfold BountyEscrow.step BountyEscrow.applyOp
    dsimp only
    rw [herr]
  · intro st id e now hpd he
    have herr : BountyEscrow.refund st id now = .error (.err .FundsNotLocked) := by
      unfold BountyEscrow.refund
      rw [hpd]
      dsimp only
      rw [if_pos (not_not.mp (hterm e he))]
    refine ⟨herr, ?_⟩
    unfold BountyEscrow.step BountyEscrow.applyOp
    dsimp only
    rw [herr]
  · intro st st2 id contributor tr hres
    unfold BountyEscrow.release_funds at hres
    split at hres
    · exact absurd hres (by simp)
    · split at hres
      · exact absurd hres (by simp)
      · next e he =>
        split at hres
        · exact absurd hres (by simp)
        · next hstat =>
          simp only [Except.ok.injEq, Prod.mk.injEq] at hres
          obtain ⟨h1, h2⟩ := hres
          subst h1
          refine ⟨e, he, not_not.mp (by simpa using hstat), by simp, ?_⟩
          intro j hj
          simp [hj]
  · intro st st2 id now tr hres
    unfold BountyEscrow.refund at hres
    split at hres
    · exact absurd hres (by simp)
    · next e he =>
      split at hres
      · exact absurd hres (by simp)
      · split at hres
        · exact absurd hres (by simp)
        · next hstat hdl =>
          split at hres
          · exact absurd hres (by simp)
          · simp only [Except.ok.injEq, Prod.mk.injEq] at hres
            obtain ⟨h1, h2⟩ := hres
            subst h1
            refine ⟨e, he, not_not.mp (by simpa using hstat), by simp, ?_⟩
            intro j hj
            simp [hj]
  · intro st st2 depositor id amount deadline tr hres
    unfold BountyEscrow.lock_funds at hres
    split at hres
    · exact absurd hres (by simp)
    · next c hcfg =>
      split at hres
      · exact absurd hres (by simp)
      · next hfresh =>
        simp only [Except.ok.injEq, Prod.mk.injEq] at hres
        obtain ⟨h1, h2⟩ := hres
        subst h1
        refine ⟨Option.not_isSome_iff_eq_none.mp hfresh,
          ⟨⟨depositor,
              amount - BountyEscrow.lockFee (BountyEscrow.get_fee_config_internal st c.admin) amount,
              .Locked, deadline⟩, by simp, rfl⟩, ?_⟩
        intro j hj
        simp [hj]
  · intro st st2 lr rr recip en tr hres
    unfold BountyEscrow.update_fee_config at hres
    split at hres
    · exact absurd hres (by simp)
    · split at hres
      · exact absurd hres (by simp)
      · split at hres
        · exact absurd hres (by simp)
        · simp only [Except.ok.injEq, Prod.mk.injEq] at hres
          obtain ⟨h1, h2⟩ := hres
          subst h1
          rfl
  · intro st st2 a t tr hres
    unfold BountyEscrow.init at hres
    split at hres
    · exact absurd hres (by simp)
    · simp only [Except.ok.injEq, Prod.mk.injEq] at hres
      obtain ⟨h1, h2⟩ := hres
      subst h1
      rfl

/-- C3: for a `Locked` record, `refund` fails with `DeadlineNotPassed` exactly
when the ledger time is strictly before the stored deadline; at or after the
deadline (on an initialized contract) it succeeds exactly once, transferring
the full stored amount back to the depositor with no fee, marking the record
`Refunded`, and any further `refund` fails with `FundsNotLocked`. -/
theorem claim_C3_refund_deadline_gating (st : BountyEscrow.State) (id : Nat)
    (e : BountyEscrow.Escrow) (now : Nat)
    (hpd : st.escrows id = some e) (hlock : e.status = .Locked) :
    (BountyEscrow.refund st id now = .error (.err .DeadlineNotPassed) ↔ now < e.deadline) ∧
    (∀ c : BountyEscrow.AdminCfg, st.cfg = some c → e.deadline ≤ now →
      ∃ st2, BountyEscrow.refund st id now =
          .ok (st2, [Transfer.mk contractAddr e.depositor e.amount]) ∧
        st2.escrows id = some { e with status := .Refunded } ∧
        (∀ j, j ≠ id → st2.escrows j = st.escrows j) ∧
        ∀ now2, BountyEscrow.refund st2 id now2 = .error (.err .FundsNotLocked)) := by
  have hnl : ¬e.status ≠ BountyEscrow.EscrowStatus.Locked := by simp [hlock]
  constructor
  · constructor
    · intro herr
      by_contra hge
      push_neg at hge
      unfold BountyEscrow.refund at herr
      rw [hpd] at herr
      dsimp only at herr
      rw [if_neg hnl, if_neg (not_lt.mpr hge)] at herr
      cases hcc : st.cfg with
      | none => rw [hcc] at herr; exact absurd herr (by simp)
      | some c => rw [hcc] at herr; exact absurd herr (by simp)
    · intro hlt
      unfold BountyEscrow.refund
      rw [hpd]
      dsimp only
      rw [if_neg hnl, if_pos hlt]
  · intro c hc hge
    have hok : BountyEscrow.refund st id now =
        .ok (({ st with escrows := fun j =>
                  if j = id then some { e with status := .Refunded }
                  else st.escrows j } : BountyEscrow.State),
             [Transfer.mk contractAddr e.depositor e.amount]) := by
      unfold BountyEscrow.refund
      rw [hpd]
      dsimp only
      rw [if_neg hnl, if_neg (not_lt.mpr hge), hc]
    refine ⟨_, hok, by simp, ?_, ?_⟩
    · intro j hj
      simp [hj]
    · intro now2
      unfold BountyEscrow.refund
      dsimp only
      rw [if_pos rfl]
      dsimp only
      rw [if_pos (by simp)]

theorem bounty_applyLockRate_err (fc : BountyEscrow.FeeConfig) (r : Int)
    (hbad : r < 0 ∨ MAX_FEE_RATE < r) :
    BountyEscrow.applyLockRate fc (some r) = .error (.err .InvalidFeeRate) := by
  simp only [BountyEscrow.applyLockRate]
  rw [if_pos hbad]

theorem bounty_applyReleaseRate_err (fc : BountyEscrow.FeeConfig) (r : Int)
    (hbad : r < 0 ∨ MAX_FEE_RATE < r) :
    BountyEscrow.applyReleaseRate fc (some r) = .error (.err .InvalidFeeRate) := by
  simp only [BountyEscrow.applyReleaseRate]
  rw [if_pos hbad]

theorem program_applyLockRate_err (fc : ProgramEscrow.FeeConfig) (r : Int)
    (hbad : r < 0 ∨ MAX_FEE_RATE < r) :
    ProgramEscrow.applyLockRate fc (some r) = .error "Invalid lock fee rate" := by
  simp only [ProgramEscrow.applyLockRate]
  rw [if_pos hbad]

theorem program_applyPayoutRate_err (fc : ProgramEscrow.FeeConfig) (r : Int)
    (hbad : r < 0 ∨ MAX_FEE_RATE < r) :
    ProgramEscrow.applyPayoutRate fc (some r) = .error "Invalid payout fee rate" := by
  simp only [ProgramEscrow.applyPayoutRate]
  rw [if_pos hbad]

/-- C6: in both variants, `update_fee_config` called with any supplied rate
outside `[0, MAX_FEE_RATE]` rejects the whole call before storing anything —
the bounty variant with the typed `InvalidFeeRate` error, the program variant
with an abort — and the rolled-back step leaves the stored configuration (and
all other storage) unchanged, even when the other supplied fields are valid. -/
theorem claim_C6_fee_rate_validation :
    (∀ (st : BountyEscrow.State) (lr rr : Option Int) (recip : Option Address)
        (en : Option Bool) (r : Int), st.cfg.isSome = true →
      (lr = some r ∨ rr = some r) → (r < 0 ∨ MAX_FEE_RATE < r) →
      BountyEscrow.update_fee_config st lr rr recip en = .error (.err .InvalidFeeRate) ∧
      BountyEscrow.step st (.updateFee lr rr recip en) = st) ∧
    (∀ (st : ProgramEscrow.State) (lr pr : Option Int) (recip : Option Address)
        (en : Option Bool) (r : Int), st.program.isSome = true →
      (lr = some r ∨ pr = some r) → (r < 0 ∨ MAX_FEE_RATE < r) →
      (∃ msg, ProgramEscrow.update_fee_config st lr pr recip en = .error msg) ∧
      ProgramEscrow.step st (.updateFee lr pr recip en) = st) := by
  constructor
  · intro st lr rr recip en r hsome hor hbad
    obtain ⟨c, hc⟩ := Option.isSome_iff_exists.mp hsome
    have herr : BountyEscrow.update_fee_config st lr rr recip en =
        .error (.err .InvalidFeeRate) := by
      unfold BountyEscrow.update_fee_config
      rw [hc]
      dsimp only
      rcases hor with h | h
      · subst h
        rw [bounty_applyLockRate_err _ r hbad]
      · subst h
        cases lr with
        | none =>
          simp only [BountyEscrow.applyLockRate]
          rw [bounty_applyReleaseRate_err _ r hbad]
        | some r2 =>
          by_cases h2 : r2 < 0 ∨ MAX_FEE_RATE < r2
          · rw [bounty_applyLockRate_err _ r2 h2]
          · simp only [BountyEscrow.applyLockRate]
            rw [if_neg h2]
            dsimp only
            rw [bounty_applyReleaseRate_err _ r hbad]
    refine ⟨herr, ?_⟩
    unfold BountyEscrow.step BountyEscrow.applyOp
    dsimp only
    rw [herr]
  · intro st lr pr recip en r hsome hor hbad
    obtain ⟨pd, hpd⟩ := Option.isSome_iff_exists.mp hsome
    have herr : ∃ msg, ProgramEscrow.update_fee_config st lr pr recip en = .error msg := by
      rcases hor with h | h
      · refine ⟨"Invalid lock fee rate", ?_⟩
        subst h
        unfold ProgramEscrow.update_fee_config
        rw [hpd]
        dsimp only
        rw [program_applyLockRate_err _ r hbad]
      · subst h
        cases lr with
        | none =>
          refine ⟨"Invalid payout fee rate", ?_⟩
          unfold ProgramEscrow.update_fee_config
          rw [hpd]
          dsimp only
          simp only [ProgramEscrow.applyLockRate]
          rw [program_applyPayoutRate_err _ r hbad]
        | some r2 =>
          by_cases h2 : r2 < 0 ∨ MAX_FEE_RATE < r2
          · refine ⟨"Invalid lock fee rate", ?_⟩
            unfold ProgramEscrow.update_fee_config
            rw [hpd]
            dsimp only
            rw [program_applyLockRate_err _ r2 h2]
          · refine ⟨"Invalid payout fee rate", ?_⟩
            unfold ProgramEscrow.update_fee_config
            rw [hpd]
            dsimp only
            simp only [ProgramEscrow.applyLockRate]
            rw [if_neg h2]
            dsimp only
            rw [program_applyPayoutRate_err _ r hbad]
    obtain ⟨msg, hmsg⟩ := herr
    refine ⟨⟨msg, hmsg⟩, ?_⟩
    unfold ProgramEscrow.step ProgramEscrow.applyOp
    dsimp only
    rw [hmsg]

/-- C7 (amended): on an initialized contract with fees enabled and a positive
lock rate, for every amount `a ≥ 0` whose product with the rate does not
overflow i128, `lock_funds` on a fresh id succeeds, persists a `Locked`
record holding `a - ⌊a*r/10000⌋` and the supplied deadline, and when the fee
is positive issues a transfer of the fee from the depositor to the fee
recipient. -/
theorem claim_C7_lock_funds_stores_net (st : BountyEscrow.State)
    (c : BountyEscrow.AdminCfg) (fc : BountyEscrow.FeeConfig)
    (depositor : Address) (id : Nat) (amount : Int) (deadline : Nat)
    (hc : st.cfg = some c) (hfc : st.feeConfig = some fc)
    (hen : fc.fee_enabled = true) (hrate : 0 < fc.lock_fee_rate)
    (ha : 0 ≤ amount) (hov : amount * fc.lock_fee_rate ≤ i128Max)
    (hfresh : st.escrows id = none) :
    ∃ st2 tr, BountyEscrow.lock_funds st depositor id amount deadline = .ok (st2, tr) ∧
      st2.escrows id = some
        ⟨depositor, amount - amount * fc.lock_fee_rate / BASIS_POINTS,
          .Locked, deadline⟩ ∧
      (0 < amount * fc.lock_fee_rate / BASIS_POINTS →
        Transfer.mk depositor fc.fee_recipient
          (amount * fc.lock_fee_rate / BASIS_POINTS) ∈ tr) := by
  have hgfc : BountyEscrow.get_fee_config_internal st c.admin = fc := by
    unfold BountyEscrow.get_fee_config_internal
    rw [hfc]
    rfl
  have hfee : BountyEscrow.calculate_fee amount fc.lock_fee_rate =
      amount * fc.lock_fee_rate / BASIS_POINTS :=
    calculate_fee_no_overflow amount fc.lock_fee_rate ha hrate hov
  have hlf : BountyEscrow.lockFee fc amount =
      amount * fc.lock_fee_rate / BASIS_POINTS := by
    unfold BountyEscrow.lockFee
    rw [if_pos ⟨hen, hrate⟩, hfee]
  have hok : BountyEscrow.lock_funds st depositor id amount deadline =
      .ok (({ st with escrows := fun j =>
                if j = id then
                  some ⟨depositor, amount - amount * fc.lock_fee_rate / BASIS_POINTS,
                    .Locked, deadline⟩
                else st.escrows j } : BountyEscrow.State),
           Transfer.mk depositor contractAddr
               (amount - amount * fc.lock_fee_rate / BASIS_POINTS) ::
             (if 0 < amount * fc.lock_fee_rate / BASIS_POINTS then
               [Transfer.mk depositor fc.fee_recipient
                 (amount * fc.lock_fee_rate / BASIS_POINTS)]
              else [])) := by
    unfold BountyEscrow.lock_funds
    rw [hc]
    dsimp only
    rw [if_neg (by simp [hfresh]), hgfc, hlf]
  refine ⟨_, _, hok, by simp, ?_⟩
  intro hfee2
  rw [if_pos hfee2]
  simp

/-- C9: `lock_program_funds` moves no value through the settlement gateway:
it issues no token transfer at all (the transfer list is empty), even when it
emits a fee-collected event; storage changes only by adding the net amount to
`total_funds` and `remaining_balance`. -/
theorem claim_C9_lock_no_transfer (st : ProgramEscrow.State)
    (pd : ProgramEscrow.ProgramData) (amount : Int)
    (hpd : st.program = some pd) (hamt : 0 < amount) :
    ∃ evs, ProgramEscrow.lock_program_funds st amount =
        .ok (({ st with
                  program := some
                    { pd with
                        total_funds := pd.total_funds + (amount -
                          ProgramEscrow.lockFee (ProgramEscrow.get_fee_config_internal st) amount),
                        remaining_balance := pd.remaining_balance + (amount -
                          ProgramEscrow.lockFee (ProgramEscrow.get_fee_config_internal st) amount) } }
              : ProgramEscrow.State),
          [], evs) ∧
      (0 < ProgramEscrow.lockFee (ProgramEscrow.get_fee_config_internal st) amount →
        ProgramEscrow.Event.feeCollected "lock"
            (ProgramEscrow.lockFee (ProgramEscrow.get_fee_config_internal st) amount)
            (ProgramEscrow.get_fee_config_internal st).lock_fee_rate
            (ProgramEscrow.get_fee_config_internal st).fee_recipient ∈ evs) := by
  have hok : ProgramEscrow.lock_program_funds st amount =
      .ok (({ st with
                program := some
                  { pd with
                      total_funds := pd.total_funds + (amount -
                        ProgramEscrow.lockFee (ProgramEscrow.get_fee_config_internal st) amount),
                      remaining_balance := pd.remaining_balance + (amount -
                        ProgramEscrow.lockFee (ProgramEscrow.get_fee_config_internal st) amount) } }
            : ProgramEscrow.State),
        [],
        (if 0 < ProgramEscrow.lockFee (ProgramEscrow.get_fee_config_internal st) amount then
          [ProgramEscrow.Event.feeCollected "lock"
            (ProgramEscrow.lockFee (ProgramEscrow.get_fee_config_internal st) amount)
            (ProgramEscrow.get_fee_config_internal st).lock_fee_rate
            (ProgramEscrow.get_fee_config_internal st).fee_recipient]
         else []) ++
          [ProgramEscrow.Event.fundsLocked pd.program_id
            (amount - ProgramEscrow.lockFee (ProgramEscrow.get_fee_config_internal st) amount)
            (pd.remaining_balance + (amount -
              ProgramEscrow.lockFee (ProgramEscrow.get_fee_config_internal st) amount))]) := by
    unfold ProgramEscrow.lock_program_funds
    rw [if_neg (by omega), hpd]
  refine ⟨_, hok, ?_⟩
  intro hfee
  rw [if_pos hfee]
  simp

/-- C10: the bounty-escrow `lock_funds` performs no positivity check: with a
non-positive amount (and a stored lock rate in the validated band) it still
returns `Ok` and persists a `Locked` record whose stored net amount is
non-positive. -/
theorem claim_C10_no_positivity_check (st : BountyEscrow.State)
    (c : BountyEscrow.AdminCfg) (depositor : Address) (id : Nat) (amount : Int)
    (deadline : Nat)
    (hc : st.cfg = some c) (hfresh : st.escrows id = none) (hamt : amount ≤ 0)
    (hr0 : 0 ≤ (BountyEscrow.get_fee_config_internal st c.admin).lock_fee_rate)
    (hr1 : (BountyEscrow.get_fee_config_internal st c.admin).lock_fee_rate ≤ MAX_FEE_RATE) :
    ∃ st2 tr, BountyEscrow.lock_funds st depositor id amount deadline = .ok (st2, tr) ∧
      ∃ rec, st2.escrows id = some rec ∧ rec.status = .Locked ∧ rec.amount ≤ 0 := by
  have hok : BountyEscrow.lock_funds st depositor id amount deadline =
      .ok (({ st with escrows := fun j =>
                if j = id then
                  some ⟨depositor,
                    amount - BountyEscrow.lockFee
                      (BountyEscrow.get_fee_config_internal st c.admin) amount,
                    .Locked, deadline⟩
                else st.escrows j } : BountyEscrow.State),
           Transfer.mk depositor contractAddr
               (amount - BountyEscrow.lockFee
                 (BountyEscrow.get_fee_config_internal st c.admin) amount) ::
             (if 0 < BountyEscrow.lockFee
                    (BountyEscrow.get_fee_config_internal st c.admin) amount then
               [Transfer.mk depositor
                 (BountyEscrow.get_fee_config_internal st c.admin).fee_recipient
                 (BountyEscrow.lockFee
                   (BountyEscrow.get_fee_config_internal st c.admin) amount)]
              else [])) := by
    unfold BountyEscrow.lock_funds
    rw [hc]
    dsimp only
    rw [if_neg (by simp [hfresh])]
  have hnp := bounty_lockFee_nonpos (BountyEscrow.get_fee_config_internal st c.admin)
    amount hr0 hr1 hamt
  refine ⟨_, _, hok,
    ⟨⟨depositor,
        amount - BountyEscrow.lockFee (BountyEscrow.get_fee_config_internal st c.admin) amount,
        .Locked, deadline⟩, by simp, rfl, ?_⟩⟩
  simp only
  omega

-- ## Witnesses

set_option maxRecDepth 8000

/-- C1 witness: the spec scenario — `batch_payout([1,2],[300,200])` against a
balance of 400 aborts; against 600 it succeeds, leaving balance 100 and two
history records with the full (zero-fee) amounts. -/
theorem claim_C1_witness :
    ProgramEscrow.batch_payout pLow [1, 2] [300, 200] 5 = .error "Insufficient balance" ∧
    ∃ pd2 tr evs,
      ProgramEscrow.batch_payout pHigh [1, 2] [300, 200] 5 =
        .ok ({ pHigh with program := some pd2 }, tr, evs) ∧
      pd2.remaining_balance = 100 ∧
      pd2.payout_history = [⟨1, 300, 5⟩, ⟨2, 200, 5⟩] := by
  constructor
  · have h := (claim_C1_batch_payout_atomicity pLow ⟨"p", 600, 400, 7, [], 9⟩ [1, 2]
      [300, 200] 5 rfl (by simp) rfl (by decide) (by decide)).1
    exact (h (by decide)).1
  · have h := (claim_C1_batch_payout_atomicity pHigh ⟨"p", 600, 600, 7, [], 9⟩ [1, 2]
      [300, 200] 5 rfl (by simp) rfl (by decide) (by decide)).2 (by decide)
    obtain ⟨pd2, tr, evs, hok, hrb, hh, _⟩ := h
    refine ⟨pd2, tr, evs, hok, ?_, ?_⟩
    · rw [hrb]
      decide
    · rw [hh]
      decide

/-- C2 witness: on a `Released` record, both `release_funds` and `refund`
fail with `FundsNotLocked`. -/
theorem claim_C2_witness :
    BountyEscrow.release_funds bReleased 0 7 = .error (.err .FundsNotLocked) ∧
    BountyEscrow.refund bReleased 0 999 = .error (.err .FundsNotLocked) := by
  have h := claim_C2_terminal_states_absorbing
  exact ⟨(h.1 bReleased 0 ⟨3, 990, .Released, 50⟩ 7 rfl (Or.inl rfl) rfl).1,
         (h.2.1 bReleased 0 ⟨3, 990, .Released, 50⟩ 999 rfl (Or.inl rfl)).1⟩

/-- C3 witness: refund at time 50 (before deadline 100) fails
`DeadlineNotPassed`; at time 150 it refunds the full 500 to the depositor,
marks the record `Refunded`, and a second refund fails `FundsNotLocked`. -/
theorem claim_C3_witness :
    BountyEscrow.refund bLocked 0 50 = .error (.err .DeadlineNotPassed) ∧
    ∃ st2, BountyEscrow.refund bLocked 0 150 =
        .ok (st2, [Transfer.mk contractAddr 3 500]) ∧
      st2.escrows 0 = some ⟨3, 500, .Refunded, 100⟩ ∧
      ∀ now2, BountyEscrow.refund st2 0 now2 = .error (.err .FundsNotLocked) := by
  have h1 := claim_C3_refund_deadline_gating bLocked 0 ⟨3, 500, .Locked, 100⟩ 50 rfl rfl
  have h2 := claim_C3_refund_deadline_gating bLocked 0 ⟨3, 500, .Locked, 100⟩ 150 rfl rfl
  refine ⟨h1.1.mpr (by norm_num), ?_⟩
  obtain ⟨st2, hok, hesc, hframe, habs⟩ := h2.2 ⟨1, 2⟩ rfl (by norm_num)
  exact ⟨st2, hok, hesc, habs⟩

/-- C6 witness: the spec scenario — `update_fee_config(lock_fee_rate = 1500)`
is rejected in both variants. -/
theorem claim_C6_witness :
    BountyEscrow.update_fee_config bLocked (some 1500) none none none =
      .error (.err .InvalidFeeRate) ∧
    ∃ msg, ProgramEscrow.update_fee_config pHigh (some 1500) none none none =
      .error msg := by
  have h := claim_C6_fee_rate_validation
  exact ⟨(h.1 bLocked (some 1500) none none none 1500 rfl (Or.inl rfl)
            (by norm_num [MAX_FEE_RATE])).1,
         (h.2 pHigh (some 1500) none none none 1500 rfl (Or.inl rfl)
            (by norm_num [MAX_FEE_RATE])).1⟩

/-- C7 counterexample: the stored amount is not `amount - ⌊amount*r/10000⌋`
on every input the operation accepts.  With the 1% lock fee enabled: locking
`-5` stores `-5` (Rust division truncates toward zero, so the fee is `0`)
where the floor formula demands `-4`; and locking `i128Max` overflows the
checked multiply, so the fee is waived and the full amount is stored. -/
theorem claim_C7_counterexample :
    (∃ st2 tr, BountyEscrow.lock_funds bFee 3 2 (-5) 77 = .ok (st2, tr) ∧
      st2.escrows 2 = some ⟨3, -5, .Locked, 77⟩ ∧
      (-5 : Int) ≠ -5 - (-5) * 100 / BASIS_POINTS) ∧
    (∃ st2 tr, BountyEscrow.lock_funds bFee 3 4 i128Max 77 = .ok (st2, tr) ∧
      st2.escrows 4 = some ⟨3, i128Max, .Locked, 77⟩ ∧
      i128Max ≠ i128Max - i128Max * 100 / BASIS_POINTS) := by
  constructor
  · exact ⟨_, _, rfl, by decide, by decide⟩
  · exact ⟨_, _, rfl, by decide, by decide⟩

/-- C7 witness: the spec scenario — locking 1000 units at a 1% lock fee
stores a `Locked` record of 990 and transfers 10 to the fee recipient. -/
theorem claim_C7_witness :
    ∃ st2 tr, BountyEscrow.lock_funds bFee 3 0 1000 77 = .ok (st2, tr) ∧
      st2.escrows 0 = some ⟨3, 990, .Locked, 77⟩ ∧ Transfer.mk 3 9 10 ∈ tr := by
  obtain ⟨st2, tr, hok, hesc, hmem⟩ := claim_C7_lock_funds_stores_net bFee ⟨1, 2⟩
    ⟨100, 0, 9, true⟩ 3 0 1000 77 rfl rfl rfl (by norm_num) (by norm_num)
    (by decide) rfl
  refine ⟨st2, tr, hok, ?_, ?_⟩
  · have heq : some (⟨3, 1000 - 1000 *
        (⟨100, 0, 9, true⟩ : BountyEscrow.FeeConfig).lock_fee_rate / BASIS_POINTS,
          .Locked, 77⟩ :
          BountyEscrow.Escrow) = some (⟨3, 990, .Locked, 77⟩ : BountyEscrow.Escrow) := by
      decide
    exact hesc.trans heq
  · have hev : Transfer.mk 3 (⟨100, 0, 9, true⟩ : BountyEscrow.FeeConfig).fee_recipient
        (1000 * (⟨100, 0, 9, true⟩ : BountyEscrow.FeeConfig).lock_fee_rate /
          BASIS_POINTS) =
        Transfer.mk 3 9 10 := by decide
    exact hev ▸ hmem (by decide)

/-- C9 witness: locking 1000 units with a 1% fee enabled issues no transfer
(the transfer list is empty) while emitting the fee-collected event. -/
theorem claim_C9_witness :
    ∃ st2 evs, ProgramEscrow.lock_program_funds pFee 1000 = .ok (st2, [], evs) ∧
      ProgramEscrow.Event.feeCollected "lock" 10 100 8 ∈ evs := by
  obtain ⟨evs, hok, hfee⟩ := claim_C9_lock_no_transfer pFee ⟨"p", 0, 0, 7, [], 9⟩ 1000
    rfl (by norm_num)
  refine ⟨_, evs, hok, ?_⟩
  have hev : ProgramEscrow.Event.feeCollected "lock"
      (ProgramEscrow.lockFee (ProgramEscrow.get_fee_config_internal pFee) 1000)
      (ProgramEscrow.get_fee_config_internal pFee).lock_fee_rate
      (ProgramEscrow.get_fee_config_internal pFee).fee_recipient =
      ProgramEscrow.Event.feeCollected "lock" 10 100 8 := by decide
  exact hev ▸ hfee (by decide)

/-- C10 witness: locking `-100` on a fresh id succeeds and stores a `Locked`
record with a non-positive amount. -/
theorem claim_C10_witness :
    ∃ st2 tr, BountyEscrow.lock_funds bFee 3 1 (-100) 77 = .ok (st2, tr) ∧
      ∃ rec, st2.escrows 1 = some rec ∧ rec.status = .Locked ∧ rec.amount ≤ 0 :=
  claim_C10_no_positivity_check bFee ⟨1, 2⟩ 3 1 (-100) 77 rfl rfl (by norm_num)
    (by decide) (by decide)
